import Mathlib

/-!
Verification of the WebRTC-FTP stop-and-wait reliability layer

Shallow embedding of the reliability session (`ReliabilityLayer` in
`client/src/App.jsx`), the base64 file codec
(`arrayBufferToBase64` / `base64ToUint8Array`), the file-transfer
protocol (`sendFile` and the delivery callback of the `App` component),
and the signaling relay (`server/index.js`).

Bytes are modelled as natural numbers below 256, byte buffers as
`List Nat`, timestamps as naturals, and the JavaScript `setTimeout`
timers of the session as an explicit `Timer` value recording which
callback is armed.
-/

namespace WebRTCFTP

/-- A byte buffer (each entry intended `< 256`), modelling `Uint8Array`. -/
abbrev Bytes := List Nat

/-! Section: Base64 codec (`arrayBufferToBase64` / `base64ToUint8Array`)

`arrayBufferToBase64` builds a binary string from the bytes via
`String.fromCharCode` and applies `btoa`; `base64ToUint8Array` applies
`atob` and reads the char codes back. The net effect on a byte buffer is
standard base64 encoding and decoding, modelled here directly. -/

/-- The base64 alphabet used by `btoa`/`atob`. -/
def b64Table : List Char :=
  ['A', 'B', 'C', 'D', 'E', 'F', 'G', 'H', 'I', 'J', 'K', 'L', 'M',
   'N', 'O', 'P', 'Q', 'R', 'S', 'T', 'U', 'V', 'W', 'X', 'Y', 'Z',
   'a', 'b', 'c', 'd', 'e', 'f', 'g', 'h', 'i', 'j', 'k', 'l', 'm',
   'n', 'o', 'p', 'q', 'r', 's', 't', 'u', 'v', 'w', 'x', 'y', 'z',
   '0', '1', '2', '3', '4', '5', '6', '7', '8', '9', '+', '/']

/-- The base64 character for a 6-bit value. -/
def b64Char (n : Nat) : Char := b64Table.getD n 'A'

/-- The 6-bit value of a base64 character. -/
def b64Index (c : Char) : Nat := b64Table.indexOf c

/-- Base64 encoding of a byte list, three bytes to four characters,
with `=` padding, as performed by `btoa` on the binary string. -/
def base64EncodeRec : Bytes → List Char
  | [] => []
  | [b1] => [b64Char (b1 / 4), b64Char (b1 % 4 * 16), '=', '=']
  | [b1, b2] =>
      [b64Char (b1 / 4), b64Char (b1 % 4 * 16 + b2 / 16),
       b64Char (b2 % 16 * 4), '=']
  | b1 :: b2 :: b3 :: rest =>
      b64Char (b1 / 4) :: b64Char (b1 % 4 * 16 + b2 / 16) ::
      b64Char (b2 % 16 * 4 + b3 / 64) :: b64Char (b3 % 64) ::
      base64EncodeRec rest

/-- Base64 decoding of a character list, four characters to up to three
bytes, honouring `=` padding, as performed by `atob`. -/
def base64DecodeRec : List Char → Bytes
  | c1 :: c2 :: c3 :: c4 :: rest =>
      if c3 = '=' then [b64Index c1 * 4 + b64Index c2 / 16]
      else if c4 = '=' then
        [b64Index c1 * 4 + b64Index c2 / 16,
         b64Index c2 % 16 * 16 + b64Index c3 / 4]
      else
        (b64Index c1 * 4 + b64Index c2 / 16) ::
        (b64Index c2 % 16 * 16 + b64Index c3 / 4) ::
        (b64Index c3 % 4 * 64 + b64Index c4) ::
        base64DecodeRec rest
  | _ => []

/-- `arrayBufferToBase64` from `App.jsx`: bytes to base64 text. -/
def arrayBufferToBase64 (buffer : Bytes) : String :=
  String.mk (base64EncodeRec buffer)

/-- `base64ToUint8Array` from `App.jsx`: base64 text back to bytes. -/
def base64ToUint8Array (base64 : String) : Bytes :=
  base64DecodeRec base64.data

theorem b64Index_b64Char : ∀ n < 64, b64Index (b64Char n) = n := by decide

theorem b64Char_ne_eq : ∀ n < 64, b64Char n ≠ '=' := by decide

theorem base64_roundtrip (bs : Bytes) (h : ∀ b ∈ bs, b < 256) :
    base64DecodeRec (base64EncodeRec bs) = bs := by
  match bs with
  | [] => simp [base64EncodeRec, base64DecodeRec]
  | [b1] =>
      have hb1 : b1 < 256 := h b1 (by simp)
      have h1 := b64Index_b64Char (b1 / 4) (by omega)
      have h2 := b64Index_b64Char (b1 % 4 * 16) (by omega)
      simp [base64EncodeRec, base64DecodeRec, h1, h2]
      omega
  | [b1, b2] =>
      have hb1 : b1 < 256 := h b1 (by simp)
      have hb2 : b2 < 256 := h b2 (by simp)
      have h1 := b64Index_b64Char (b1 / 4) (by omega)
      have h2 := b64Index_b64Char (b1 % 4 * 16 + b2 / 16) (by omega)
      have h3 := b64Index_b64Char (b2 % 16 * 4) (by omega)
      have hne := b64Char_ne_eq (b2 % 16 * 4) (by omega)
      simp [base64EncodeRec, base64DecodeRec, hne, h1, h2, h3]
      omega
  | b1 :: b2 :: b3 :: rest =>
      have hb1 : b1 < 256 := h b1 (by simp)
      have hb2 : b2 < 256 := h b2 (by simp)
      have hb3 : b3 < 256 := h b3 (by simp)
      have ih := base64_roundtrip rest (fun b hb => h b (by simp [hb]))
      have h1 := b64Index_b64Char (b1 / 4) (by omega)
      have h2 := b64Index_b64Char (b1 % 4 * 16 + b2 / 16) (by omega)
      have h3 := b64Index_b64Char (b2 % 16 * 4 + b3 / 64) (by omega)
      have h4 := b64Index_b64Char (b3 % 64) (by omega)
      have hne3 := b64Char_ne_eq (b2 % 16 * 4 + b3 / 64) (by omega)
      have hne4 := b64Char_ne_eq (b3 % 64) (by omega)
      simp only [base64EncodeRec, base64DecodeRec, if_neg hne3, if_neg hne4,
        h1, h2, h3, h4, ih, List.cons.injEq, and_true]
      omega
termination_by bs.length

theorem base64_string_roundtrip (bs : Bytes) (h : ∀ b ∈ bs, b < 256) :
    base64ToUint8Array (arrayBufferToBase64 bs) = bs := by
  simpa [base64ToUint8Array, arrayBufferToBase64] using base64_roundtrip bs h

/-! Section: Wire frames and payloads

`Data` frames are sent as `JSON.stringify({ t: 'data', seq, payload })`,
acks as `JSON.stringify({ t: 'ack', seq })`. Payload variants mirror the
object literals built in `App.jsx` (`sendMessage`, `sendFile`). -/

/-- Application payload carried inside a `Data` frame. -/
inductive Payload where
  | text (text : String)
  | fileMeta (name : String) (size : Nat) (type : String) (totalChunks : Nat)
  | fileChunk (index : Nat) (data : String)
  | fileComplete
  deriving Repr, DecidableEq

/-- Wire frame: tagged union of `Data{seq, payload}` and `Ack{seq}`. -/
inductive Frame where
  | data (seq : Nat) (payload : Payload)
  | ack (seq : Nat)
  deriving Repr, DecidableEq

/-- Opening brace character of a JSON object, as a string. -/
def lb : String := "\x7b"

/-- Closing brace character of a JSON object, as a string. -/
def rb : String := "\x7d"

/-- JSON string escaping of a single character (the cases `JSON.stringify`
escapes that can appear in the payloads of this protocol). -/
def jsonEscapeChar (c : Char) : List Char :=
  if c = '"' then ['\\', '"']
  else if c = '\\' then ['\\', '\\']
  else if c = '\n' then ['\\', 'n']
  else if c = '\r' then ['\\', 'r']
  else if c = '\t' then ['\\', 't']
  else [c]

/-- A JSON string literal. -/
def jsonString (s : String) : String :=
  "\"" ++ String.mk (List.flatten (s.data.map jsonEscapeChar)) ++ "\""

/-- `JSON.stringify` of a payload object, keys in literal order. -/
def serializePayload : Payload → String
  | .text t =>
      lb ++ "\"kind\":\"text\",\"text\":" ++ jsonString t ++ rb
  | .fileMeta name size type totalChunks =>
      lb ++ "\"kind\":\"file-meta\",\"name\":" ++ jsonString name ++
      ",\"size\":" ++ toString size ++ ",\"type\":" ++ jsonString type ++
      ",\"totalChunks\":" ++ toString totalChunks ++ rb
  | .fileChunk index data =>
      lb ++ "\"kind\":\"file-chunk\",\"index\":" ++ toString index ++
      ",\"data\":" ++ jsonString data ++ rb
  | .fileComplete =>
      lb ++ "\"kind\":\"file-complete\"" ++ rb

/-- `JSON.stringify` of a wire frame. -/
def serializeFrame : Frame → String
  | .data seq payload =>
      lb ++ "\"t\":\"data\",\"seq\":" ++ toString seq ++
      ",\"payload\":" ++ serializePayload payload ++ rb
  | .ack seq =>
      lb ++ "\"t\":\"ack\",\"seq\":" ++ toString seq ++ rb

/-! Section: Reliability session state (`ReliabilityLayer` in `App.jsx`) -/

/-- 2^32; `(x + 1) >>> 0` in the source is addition modulo this. -/
def UINT32_MOD : Nat := 2 ^ 32

/-- The armed `setTimeout` callback of the session: either nothing,
the retransmission callback closed over `seq` and `payload` (armed by
`send`), or the no-op callback `() => {}` armed after a retransmission. -/
inductive Timer where
  | idle
  | retransmit (delayMs seq : Nat) (payload : Payload)
  | noop (delayMs : Nat)
  deriving Repr, DecidableEq

/-- The `stats` record of the session. -/
structure Stats where
  sent : Nat
  received : Nat
  acks : Nat
  retransmits : Nat
  rttMs : Nat
  bytesSent : Nat
  bytesReceived : Nat
  deriving Repr, DecidableEq

/-- The mutable `state` object of `ReliabilityLayer`. -/
structure SessionState where
  nextSeq : Nat
  awaitingAckSeq : Option Nat
  inflightPayload : Option Payload
  inflightTimestamp : Nat
  timer : Timer
  timeoutMs : Nat
  stats : Stats
  rttHistory : List Nat
  rttHistoryMax : Nat
  deriving Repr, DecidableEq

/-- The stats snapshot emitted by `update()`:
`onStats({ ...state.stats, rttHistory: [...state.rttHistory] })`. -/
structure Snapshot where
  stats : Stats
  rttHistory : List Nat
  deriving Repr, DecidableEq

/-- The snapshot `update()` emits from a given state. -/
def mkSnapshot (s : SessionState) : Snapshot :=
  ⟨s.stats, s.rttHistory⟩

/-- Initial stats: all counters zero. -/
def initStats : Stats := ⟨0, 0, 0, 0, 0, 0, 0⟩

/-- The state a fresh `ReliabilityLayer` starts from. -/
def initState : SessionState :=
  { nextSeq := 0
    awaitingAckSeq := Option.none
    inflightPayload := Option.none
    inflightTimestamp := 0
    timer := Timer.idle
    timeoutMs := 600
    stats := initStats
    rttHistory := []
    rttHistoryMax := 40 }

/-- Result of a `send` call: the returned boolean, the state after the
call, the frames written to the data channel, and the emitted snapshots. -/
structure SendResult where
  accepted : Bool
  state : SessionState
  wire : List Frame
  snaps : List Snapshot
  deriving Repr, DecidableEq

/-- Result of a `handleIncoming` call: the state after the call, the
frames written to the channel, the payloads passed to the delivery
callback, and the emitted snapshots. -/
structure RecvResult where
  state : SessionState
  wire : List Frame
  delivered : List Payload
  snaps : List Snapshot
  deriving Repr, DecidableEq

/-- Result of a timer expiry: state, frames written, snapshots. -/
structure TimerResult where
  state : SessionState
  wire : List Frame
  snaps : List Snapshot
  deriving Repr, DecidableEq

/-- `send(dc, payload)` from `ReliabilityLayer`. `dcOpen` models
`dc && dc.readyState === 'open'`; `now` models `performance.now()`. -/
def send (dcOpen : Bool) (now : Nat) (s : SessionState) (payload : Payload) :
    SendResult :=
  if !dcOpen then ⟨false, s, [], []⟩
  else if s.awaitingAckSeq ≠ Option.none then ⟨false, s, [], []⟩
  else
    let seq := s.nextSeq
    let serialized := serializeFrame (Frame.data seq payload)
    let stats1 : Stats :=
      { s.stats with
        sent := s.stats.sent + 1
        bytesSent := s.stats.bytesSent + serialized.length }
    let s1 : SessionState :=
      { s with
        awaitingAckSeq := some seq
        inflightPayload := some payload
        inflightTimestamp := now
        stats := stats1
        timer := Timer.retransmit s.timeoutMs seq payload
        nextSeq := (s.nextSeq + 1) % UINT32_MOD }
    ⟨true, s1, [Frame.data seq payload], [mkSnapshot s1]⟩

/-- The `rttHistory.push(rtt)` followed by the capacity `shift()`. -/
def pushRtt (hist : List Nat) (max rtt : Nat) : List Nat :=
  let h := hist ++ [rtt]
  if h.length > max then h.tail else h

/-- `handleIncoming(dc, raw)` from `ReliabilityLayer`. `msg` is the
decoded frame (`Option.none` for undecodable input) and `rawLen` the
length of the raw text (`raw.length`). -/
def handleIncoming (now : Nat) (s : SessionState) (msg : Option Frame)
    (rawLen : Nat) : RecvResult :=
  match msg with
  | Option.none => ⟨s, [], [], []⟩
  | some (Frame.data seq payload) =>
      let stats1 : Stats :=
        { s.stats with
          received := s.stats.received + 1
          bytesReceived := s.stats.bytesReceived + rawLen }
      let s1 : SessionState := { s with stats := stats1 }
      ⟨s1, [Frame.ack seq], [payload], [mkSnapshot s1]⟩
  | some (Frame.ack seq) =>
      if s.awaitingAckSeq = some seq then
        let rtt := now - s.inflightTimestamp
        let stats1 : Stats := { s.stats with acks := s.stats.acks + 1, rttMs := rtt }
        let s1 : SessionState :=
          { s with
            stats := stats1
            rttHistory := pushRtt s.rttHistory s.rttHistoryMax rtt
            awaitingAckSeq := Option.none
            inflightPayload := Option.none
            timer := Timer.idle }
        ⟨s1, [], [], [mkSnapshot s1]⟩
      else ⟨s, [], [], []⟩

/-- Expiry of the armed `setTimeout` callback. The retransmission
callback resends the identical frame and then arms the no-op timer
`setTimeout(() => {}, state.timeoutMs)`; the no-op callback does
nothing; after firing, a callback that took no action leaves no timer
armed. -/
def fireTimer (s : SessionState) : TimerResult :=
  match s.timer with
  | Timer.idle => ⟨s, [], []⟩
  | Timer.noop _ => ⟨{ s with timer := Timer.idle }, [], []⟩
  | Timer.retransmit _ seq payload =>
      if s.awaitingAckSeq = some seq then
        let retry := serializeFrame (Frame.data seq payload)
        let stats1 : Stats :=
          { s.stats with
            sent := s.stats.sent + 1
            retransmits := s.stats.retransmits + 1
            bytesSent := s.stats.bytesSent + retry.length }
        let s1 : SessionState :=
          { s with stats := stats1, timer := Timer.noop s.timeoutMs }
        ⟨s1, [Frame.data seq payload], [mkSnapshot s1]⟩
      else ⟨{ s with timer := Timer.idle }, [], []⟩

/-- One externally triggered step of the session: a `send` call, an
incoming message, or a timer expiry. -/
inductive SessionEvent where
  | sendEv (dcOpen : Bool) (now : Nat) (payload : Payload)
  | recvEv (now : Nat) (msg : Option Frame) (rawLen : Nat)
  | timerEv
  deriving Repr, DecidableEq

/-- The session state reached after one event. -/
def execEvent (s : SessionState) : SessionEvent → SessionState
  | SessionEvent.sendEv dcOpen now payload => (send dcOpen now s payload).state
  | SessionEvent.recvEv now msg rawLen => (handleIncoming now s msg rawLen).state
  | SessionEvent.timerEv => (fireTimer s).state

/-- The session state reached after a sequence of events. -/
def execEvents (s : SessionState) (es : List SessionEvent) : SessionState :=
  es.foldl execEvent s

/-! Section: File transfer protocol (`sendFile` and the delivery callback)

The sender computes `totalChunks = Math.ceil(file.size / CHUNK_SIZE)`,
then hands `file-meta`, the `file-chunk`s in index order, and
`file-complete` to `reliability.send`, polling (`waitUntilSent`) until
each is accepted, so the payload order below is exactly the order the
receiver's delivery callback sees on a lossless in-order run. -/

/-- `CHUNK_SIZE = 16 * 1024` from `App.jsx`. -/
def CHUNK_SIZE : Nat := 16 * 1024

/-- `Math.ceil(size / chunkSize)` on naturals. -/
def totalChunksOf (size chunkSize : Nat) : Nat :=
  (size + chunkSize - 1) / chunkSize

/-- The byte range of chunk `i`: `file.slice(i*C, min(i*C + C, size))`. -/
def fileSlice (file : Bytes) (i chunkSize : Nat) : Bytes :=
  (file.take (min (i * chunkSize + chunkSize) file.length)).drop (i * chunkSize)

/-- The `file-chunk` payloads of `sendFile`, in index order. -/
def fileChunkPayloads (file : Bytes) (chunkSize : Nat) : List Payload :=
  (List.range (totalChunksOf file.length chunkSize)).map
    (fun i => Payload.fileChunk i (arrayBufferToBase64 (fileSlice file i chunkSize)))

/-- The full payload sequence `sendFile` hands to the reliability layer. -/
def sendFilePayloads (file : Bytes) (name type : String) (chunkSize : Nat) :
    List Payload :=
  Payload.fileMeta name file.length type (totalChunksOf file.length chunkSize) ::
    fileChunkPayloads file chunkSize ++ [Payload.fileComplete]

/-- Receiver-side state of the `App` component: the received-text pane,
the announced file info, the slot buffer `recvChunksRef.current`, the
progress counters, and the reassembled file surfaced through
`URL.createObjectURL` (absent while `downloadUrl` is the empty string). -/
structure RecvState where
  receivedText : String
  recvFileInfo : Option (String × Nat × String)
  recvChunks : List (Option Bytes)
  receivedChunks : Nat
  totalChunks : Nat
  downloadUrl : Option Bytes
  deriving Repr, DecidableEq

/-- The receiver state before any payload is delivered. -/
def initRecvState : RecvState :=
  { receivedText := ""
    recvFileInfo := Option.none
    recvChunks := []
    receivedChunks := 0
    totalChunks := 0
    downloadUrl := Option.none }

/-- JavaScript array element assignment `arr[i] = v`: in range it
overwrites the slot; past the end it extends the array with holes
(`undefined`, modelled as `Option.none`) up to index `i`. -/
def jsSetIndex (l : List (Option Bytes)) (i : Nat) (v : Bytes) :
    List (Option Bytes) :=
  if i < l.length then l.set i (some v)
  else l ++ List.replicate (i - l.length) Option.none ++ [some v]

/-- UTF-8 bytes of the string `"undefined"`: a hole (`undefined`) passed
to the `Blob` constructor is stringified to this text. -/
def undefinedBytes : Bytes := [117, 110, 100, 101, 102, 105, 110, 101, 100]

/-- The byte content of `new Blob(parts, ...)` built from the slot
buffer: filled slots contribute their bytes, holes their stringification. -/
def blobBytes (parts : List (Option Bytes)) : Bytes :=
  List.flatten (parts.map (fun p => p.getD undefinedBytes))

/-- The delivery callback installed on the `ReliabilityLayer` in the
`App` component (text append, `file-meta`, `file-chunk`, `file-complete`
branches). -/
def onDeliver (r : RecvState) (p : Payload) : RecvState :=
  match p with
  | Payload.text t => { r with receivedText := r.receivedText ++ t }
  | Payload.fileMeta name size type totalChunks =>
      { r with
        recvFileInfo := some (name, size, type)
        recvChunks := List.replicate totalChunks Option.none
        receivedChunks := 0
        totalChunks := totalChunks }
  | Payload.fileChunk index data =>
      if r.recvChunks.length = 0 then r
      else
        let chunks := jsSetIndex r.recvChunks index (base64ToUint8Array data)
        { r with
          recvChunks := chunks
          receivedChunks := (chunks.filter (fun o => o.isSome)).length }
  | Payload.fileComplete =>
      if r.recvChunks.length = 0 then r
      else { r with downloadUrl := some (blobBytes r.recvChunks) }

/-- Delivery of a payload sequence, in order. -/
def processPayloads (r : RecvState) (ps : List Payload) : RecvState :=
  ps.foldl onDeliver r

/-- The receiver state after a lossless in-order transfer of `file`. -/
def fileRoundTrip (file : Bytes) (name type : String) (chunkSize : Nat) :
    RecvState :=
  processPayloads initRecvState (sendFilePayloads file name type chunkSize)

/-! Section: Signaling relay (`server/index.js`)

`rooms` is a `Map<roomId, Set<WebSocket>>`; distinct sockets are
distinct objects, modelled by distinct `id`s. On an
`offer`/`answer`/`candidate` message the server re-serializes the parsed
message and sends it to every other member of the room whose
`readyState` is `1` (OPEN). -/

/-- A connected WebSocket: identity plus `readyState`. -/
structure WSClient where
  id : Nat
  readyState : Nat
  deriving Repr, DecidableEq

/-- `rooms.get(roomId)` over the association-list model of the map. -/
def lookupRoom (rooms : List (String × List WSClient)) (roomId : String) :
    Option (List WSClient) :=
  (rooms.find? (fun e => e.1 == roomId)).map (fun e => e.2)

/-- The relay branch of the server's message handler: for a message of
type `offer`/`answer`/`candidate` carrying `roomId`, the list of
(recipient, forwarded text) deliveries. `raw` is the re-serialized
message `JSON.stringify(msg)`. -/
def relaySignal (rooms : List (String × List WSClient)) (sender : WSClient)
    (type roomId raw : String) : List (WSClient × String) :=
  if type = "offer" ∨ type = "answer" ∨ type = "candidate" then
    match lookupRoom rooms roomId with
    | Option.none => []
    | some room =>
        (room.filter (fun c => c.id != sender.id && c.readyState == 1)).map
          (fun c => (c, raw))
  else []

/-! Section: Claim theorems -/

/-- C3: Send backpressure without side effects: if the channel is
not open or a message is already in flight (`awaitingAckSeq ≠ None`),
`send` returns `false` and changes nothing — same state, no frame
written, no snapshot emitted (hence no stats change and no timer armed). -/
theorem send_backpressure_no_side_effects (dcOpen : Bool) (now : Nat)
    (s : SessionState) (payload : Payload)
    (h : dcOpen = false ∨ s.awaitingAckSeq ≠ Option.none) :
    send dcOpen now s payload = ⟨false, s, [], []⟩ := by
  rcases h with h | h
  · subst h
    rfl
  · simp [send, h]

theorem send_backpressure_no_side_effects_witness :
    send false 0 initState (Payload.text "x") =
      ⟨false, initState, [], []⟩ ∧
    send true 0 { initState with awaitingAckSeq := some 0 }
        (Payload.text "x") =
      ⟨false, { initState with awaitingAckSeq := some 0 }, [], []⟩ :=
  ⟨send_backpressure_no_side_effects false 0 initState (Payload.text "x")
      (Or.inl rfl),
   send_backpressure_no_side_effects true 0
      { initState with awaitingAckSeq := some 0 } (Payload.text "x")
      (Or.inr (by simp))⟩

/-- C5: Stale-ack no-op: an `Ack{seq}` whose `seq` is not the
awaited sequence number (including when nothing is in flight) leaves the
whole sender state unchanged and emits no frame, no delivery, and no
snapshot. -/
theorem stale_ack_noop (now : Nat) (s : SessionState) (seq rawLen : Nat)
    (h : s.awaitingAckSeq ≠ some seq) :
    handleIncoming now s (some (Frame.ack seq)) rawLen = ⟨s, [], [], []⟩ := by
  simp [handleIncoming, h]

theorem stale_ack_noop_witness :
    handleIncoming 5 initState (some (Frame.ack 3)) 20 =
      ⟨initState, [], [], []⟩ :=
  stale_ack_noop 5 initState 3 20 (by simp [initState])

/-- C6: At-least-once receive behaviour: every decoded
`Data{seq, payload}` frame increments `stats.received` and
`stats.bytesReceived`, sends back `Ack{seq}`, and invokes the delivery
callback with the payload — including for duplicates, so delivering the
same frame twice produces exactly two acks and two deliveries. -/
theorem data_frame_at_least_once (now now2 : Nat) (s : SessionState)
    (seq rawLen : Nat) (payload : Payload) :
    (handleIncoming now s (some (Frame.data seq payload)) rawLen).state =
      { s with stats :=
        { s.stats with
          received := s.stats.received + 1
          bytesReceived := s.stats.bytesReceived + rawLen } } ∧
    (handleIncoming now s (some (Frame.data seq payload)) rawLen).wire =
      [Frame.ack seq] ∧
    (handleIncoming now s (some (Frame.data seq payload)) rawLen).delivered =
      [payload] ∧
    ((handleIncoming now s (some (Frame.data seq payload)) rawLen).wire ++
      (handleIncoming now2
        (handleIncoming now s (some (Frame.data seq payload)) rawLen).state
        (some (Frame.data seq payload)) rawLen).wire =
      [Frame.ack seq, Frame.ack seq]) ∧
    ((handleIncoming now s (some (Frame.data seq payload)) rawLen).delivered ++
      (handleIncoming now2
        (handleIncoming now s (some (Frame.data seq payload)) rawLen).state
        (some (Frame.data seq payload)) rawLen).delivered =
      [payload, payload]) ∧
    (handleIncoming now2
      (handleIncoming now s (some (Frame.data seq payload)) rawLen).state
      (some (Frame.data seq payload)) rawLen).state.stats.received =
      s.stats.received + 2 := by
  refine ⟨rfl, rfl, rfl, rfl, rfl, ?_⟩
  simp [handleIncoming]

/-- C2 divergence witness: Retransmission in the code: after a
successful send with no ack, the first timeout emits exactly one
retransmitted frame and bumps `stats.retransmits` to 1, but it re-arms
only the no-op timer, so the second (and every later) timeout expiry
emits nothing, no retry limit exists, and no failure is ever reported —
the claimed repeat-until-ack-or-limit policy is not what the code does. -/
theorem retransmit_only_once :
    (send true 0 initState (Payload.text "m")).accepted = true ∧
    (fireTimer (send true 0 initState (Payload.text "m")).state).wire =
      [Frame.data 0 (Payload.text "m")] ∧
    (fireTimer (send true 0 initState
        (Payload.text "m")).state).state.stats.retransmits = 1 ∧
    (fireTimer (send true 0 initState
        (Payload.text "m")).state).state.awaitingAckSeq = some 0 ∧
    (fireTimer (send true 0 initState
        (Payload.text "m")).state).state.timer = Timer.noop 600 ∧
    (fireTimer (fireTimer (send true 0 initState
        (Payload.text "m")).state).state).wire = [] ∧
    (fireTimer (fireTimer (send true 0 initState
        (Payload.text "m")).state).state).state.stats.retransmits = 1 ∧
    (fireTimer (fireTimer (send true 0 initState
        (Payload.text "m")).state).state).state.awaitingAckSeq = some 0 ∧
    (fireTimer (fireTimer (send true 0 initState
        (Payload.text "m")).state).state).state.timer = Timer.idle := by
  refine ⟨rfl, ?_, ?_, ?_, ?_, ?_, ?_, ?_, ?_⟩ <;> rfl

/-! Section: Sequence monotonicity machinery for C4 -/

/-- One accepted send immediately followed by its matching ack: returns
the assigned sequence number and the session state afterwards. -/
def sendAckCycle (s : SessionState) (payload : Payload) : Nat × SessionState :=
  let r := send true 0 s payload
  let q := r.state.awaitingAckSeq.getD 0
  (q, (handleIncoming 0 r.state (some (Frame.ack q)) 0).state)

/-- The sequence numbers assigned by `n` consecutive accepted sends,
with acks processed in between. -/
def assignedSeqs : Nat → SessionState → List Nat
  | 0, _ => []
  | Nat.succ n, s =>
      (sendAckCycle s (Payload.text "ping")).1 ::
        assignedSeqs n (sendAckCycle s (Payload.text "ping")).2

theorem sendAckCycle_spec (s : SessionState) (payload : Payload)
    (hidle : s.awaitingAckSeq = Option.none) :
    (sendAckCycle s payload).1 = s.nextSeq ∧
    (sendAckCycle s payload).2.awaitingAckSeq = Option.none ∧
    (sendAckCycle s payload).2.nextSeq = (s.nextSeq + 1) % UINT32_MOD := by
  simp [sendAckCycle, send, handleIncoming, hidle]

theorem assignedSeqs_spec (n : Nat) :
    ∀ s : SessionState, s.awaitingAckSeq = Option.none →
      s.nextSeq < UINT32_MOD →
      assignedSeqs n s =
        (List.range n).map (fun i => (s.nextSeq + i) % UINT32_MOD) := by
  induction n with
  | zero => intro s _ _; simp [assignedSeqs]
  | succ n ih =>
      intro s hidle hlt
      obtain ⟨hq, hidle2, hnext⟩ := sendAckCycle_spec s (Payload.text "ping") hidle
      have hlt2 : (sendAckCycle s (Payload.text "ping")).2.nextSeq < UINT32_MOD := by
        rw [hnext]
        exact Nat.mod_lt _ (by norm_num [UINT32_MOD])
      rw [assignedSeqs, ih _ hidle2 hlt2, hq, hnext,
        List.range_succ_eq_map, List.map_cons, List.map_map]
      congr 1
      · rw [Nat.add_zero, Nat.mod_eq_of_lt hlt]
      · apply List.map_congr_left
        intro i _
        simp only [Function.comp_apply]
        rw [Nat.mod_add_mod]
        congr 1
        omega

/-- C4: Send success postconditions: with the channel open and no
message in flight, `send` assigns `seq = nextSeq`, sets
`awaitingAck = Some(seq)`, records the in-flight payload and timestamp,
writes exactly the serialized `Data{seq, payload}` frame, increments
`stats.sent` by 1 and `stats.bytesSent` by the serialized size, emits
one stats snapshot, arms the `timeoutMs` retransmission timer, advances
`nextSeq` modulo 2^32, and returns `true`; and `N` consecutive accepted
sends from a fresh session (acks in between) are assigned sequence
numbers `0, 1, …, N-1 (mod 2^32)`. -/
theorem send_success_postconditions (now : Nat) (s : SessionState)
    (payload : Payload) (hidle : s.awaitingAckSeq = Option.none) :
    (send true now s payload).accepted = true ∧
    (send true now s payload).state =
      { s with
        awaitingAckSeq := some s.nextSeq
        inflightPayload := some payload
        inflightTimestamp := now
        stats :=
          { s.stats with
            sent := s.stats.sent + 1
            bytesSent := s.stats.bytesSent +
              (serializeFrame (Frame.data s.nextSeq payload)).length }
        timer := Timer.retransmit s.timeoutMs s.nextSeq payload
        nextSeq := (s.nextSeq + 1) % UINT32_MOD } ∧
    (send true now s payload).wire = [Frame.data s.nextSeq payload] ∧
    (send true now s payload).snaps =
      [mkSnapshot (send true now s payload).state] ∧
    (∀ N : Nat, assignedSeqs N initState =
      (List.range N).map (fun i => i % UINT32_MOD)) := by
  refine ⟨?_, ?_, ?_, ?_, ?_⟩
  · simp [send, hidle]
  · simp [send, hidle]
  · simp [send, hidle]
  · simp [send, hidle]
  · intro N
    simpa [initState] using
      assignedSeqs_spec N initState rfl (by norm_num [initState, UINT32_MOD])

theorem send_success_postconditions_witness :
    (send true 7 initState (Payload.text "x")).accepted = true ∧
    (send true 7 initState (Payload.text "x")).state =
      { initState with
        awaitingAckSeq := some initState.nextSeq
        inflightPayload := some (Payload.text "x")
        inflightTimestamp := 7
        stats :=
          { initState.stats with
            sent := initState.stats.sent + 1
            bytesSent := initState.stats.bytesSent +
              (serializeFrame (Frame.data initState.nextSeq
                (Payload.text "x"))).length }
        timer := Timer.retransmit initState.timeoutMs initState.nextSeq
          (Payload.text "x")
        nextSeq := (initState.nextSeq + 1) % UINT32_MOD } ∧
    (send true 7 initState (Payload.text "x")).wire =
      [Frame.data initState.nextSeq (Payload.text "x")] ∧
    (send true 7 initState (Payload.text "x")).snaps =
      [mkSnapshot (send true 7 initState (Payload.text "x")).state] ∧
    (∀ N : Nat, assignedSeqs N initState =
      (List.range N).map (fun i => i % UINT32_MOD)) :=
  send_success_postconditions 7 initState (Payload.text "x") rfl

/-! Section: RTT history machinery for C7 -/

theorem pushRtt_length_le (hist : List Nat) (max rtt : Nat)
    (h : hist.length ≤ max) : (pushRtt hist max rtt).length ≤ max := by
  simp only [pushRtt]
  split
  · simpa using h
  · simp_all

theorem send_preserves_rtt (dcOpen : Bool) (now : Nat) (s : SessionState)
    (payload : Payload) :
    (send dcOpen now s payload).state.rttHistory = s.rttHistory ∧
    (send dcOpen now s payload).state.rttHistoryMax = s.rttHistoryMax := by
  unfold send
  split
  · exact ⟨rfl, rfl⟩
  · split
    · exact ⟨rfl, rfl⟩
    · exact ⟨rfl, rfl⟩

theorem fireTimer_preserves_rtt (s : SessionState) :
    (fireTimer s).state.rttHistory = s.rttHistory ∧
    (fireTimer s).state.rttHistoryMax = s.rttHistoryMax := by
  unfold fireTimer
  match s.timer with
  | Timer.idle => exact ⟨rfl, rfl⟩
  | Timer.noop _ => exact ⟨rfl, rfl⟩
  | Timer.retransmit _ seq payload =>
      dsimp only
      split
      · exact ⟨rfl, rfl⟩
      · exact ⟨rfl, rfl⟩

theorem handleIncoming_rtt_bound (now : Nat) (s : SessionState)
    (msg : Option Frame) (rawLen : Nat)
    (h : s.rttHistory.length ≤ s.rttHistoryMax) :
    (handleIncoming now s msg rawLen).state.rttHistory.length ≤
      s.rttHistoryMax ∧
    (handleIncoming now s msg rawLen).state.rttHistoryMax =
      s.rttHistoryMax := by
  unfold handleIncoming
  match msg with
  | Option.none => exact ⟨h, rfl⟩
  | some (Frame.data seq payload) => exact ⟨h, rfl⟩
  | some (Frame.ack seq) =>
      dsimp only
      split
      · exact ⟨pushRtt_length_le _ _ _ h, rfl⟩
      · exact ⟨h, rfl⟩

/-- The RTT-history invariant maintained by every session entry point. -/
def rttInv (s : SessionState) : Prop :=
  s.rttHistory.length ≤ 40 ∧ s.rttHistoryMax = 40

theorem rttInv_execEvent (s : SessionState) (e : SessionEvent)
    (h : rttInv s) : rttInv (execEvent s e) := by
  obtain ⟨h1, h2⟩ := h
  cases e with
  | sendEv dcOpen now payload =>
      obtain ⟨e1, e2⟩ := send_preserves_rtt dcOpen now s payload
      exact ⟨by rw [execEvent, e1]; exact h1, by rw [execEvent, e2]; exact h2⟩
  | recvEv now msg rawLen =>
      obtain ⟨e1, e2⟩ := handleIncoming_rtt_bound now s msg rawLen (by omega)
      exact ⟨by rw [execEvent]; omega, by rw [execEvent]; omega⟩
  | timerEv =>
      obtain ⟨e1, e2⟩ := fireTimer_preserves_rtt s
      exact ⟨by rw [execEvent, e1]; exact h1, by rw [execEvent, e2]; exact h2⟩

theorem rttInv_execEvents (es : List SessionEvent) :
    ∀ s : SessionState, rttInv s → rttInv (execEvents s es) := by
  induction es with
  | nil => intro s h; exact h
  | cons e es ih =>
      intro s h
      exact ih _ (rttInv_execEvent s e h)

/-- C7: RTT history bound: after any sequence of session events (in
particular any sends and acknowledgements) from a fresh session,
`rttHistory` has length at most 40, and an append at capacity evicts
exactly the oldest sample (FIFO). -/
theorem rtt_history_bound (es : List SessionEvent) (hist : List Nat)
    (rtt : Nat) :
    (execEvents initState es).rttHistory.length ≤ 40 ∧
    (hist.length = 40 → pushRtt hist 40 rtt = hist.tail ++ [rtt]) := by
  constructor
  · exact (rttInv_execEvents es initState (by simp [rttInv, initState])).1
  · intro hlen
    match hist with
    | [] => simp at hlen
    | a :: t =>
        simp only [List.length_cons] at hlen
        simp [pushRtt, List.length_append]
        omega

theorem rtt_history_bound_witness :
    (execEvents initState []).rttHistory.length ≤ 40 ∧
    pushRtt (List.replicate 40 7) 40 9 =
      (List.replicate 40 7).tail ++ [9] :=
  ⟨(rtt_history_bound [] [] 0).1,
   (rtt_history_bound [] (List.replicate 40 7) 9).2 (by simp)⟩

/-- C8 counterexample: The slot-buffer length is not preserved for
arbitrary chunk indices: after `FileMeta{totalChunks = 1}` the buffer
has length 1, but a `FileChunk{index = 2}` grows it to length 3 (the
code only guards against an empty buffer, and JavaScript array
assignment past the end extends the array). -/
theorem slot_buffer_growth_cex :
    ((onDeliver (onDeliver initRecvState (Payload.fileMeta "f" 1 "t" 1))
        (Payload.fileChunk 2 "")).recvChunks.length = 3) ∧ (3 : Nat) ≠ 1 := by
  constructor
  · rfl
  · omega

/-- C8 amended: Reassembly buffer shape: after
`FileMeta{totalChunks = n}` the slot buffer has length exactly `n`, and
a `FileChunk` whose index is below the current buffer length writes into
an existing slot, preserving the length; but a `FileChunk` whose index
is at or past the end of a nonempty buffer grows it to `index + 1`. -/
theorem slot_buffer_shape (r : RecvState) (name type : String)
    (size n index : Nat) (data : String)
    (hin : index < r.recvChunks.length) :
    ((onDeliver r (Payload.fileMeta name size type n)).recvChunks.length
      = n) ∧
    ((onDeliver r (Payload.fileChunk index data)).recvChunks.length
      = r.recvChunks.length) ∧
    (∀ j : Nat, r.recvChunks.length ≤ j →
      r.recvChunks.length ≠ 0 →
      (onDeliver r (Payload.fileChunk j data)).recvChunks.length = j + 1) := by
  refine ⟨by simp [onDeliver], ?_, ?_⟩
  · have hne : r.recvChunks.length ≠ 0 := by omega
    simp [onDeliver, hne, jsSetIndex, hin]
  · intro j hj hne
    have hnotin : ¬ j < r.recvChunks.length := by omega
    simp [onDeliver, hne, jsSetIndex, hnotin]
    omega

theorem slot_buffer_shape_witness :
    ((onDeliver (onDeliver initRecvState (Payload.fileMeta "f" 9 "t" 2))
        (Payload.fileMeta "g" 9 "t" 5)).recvChunks.length = 5) ∧
    ((onDeliver (onDeliver initRecvState (Payload.fileMeta "f" 9 "t" 2))
        (Payload.fileChunk 1 "AA==")).recvChunks.length =
      (onDeliver initRecvState (Payload.fileMeta "f" 9 "t" 2)).recvChunks.length) ∧
    (∀ j : Nat,
      (onDeliver initRecvState (Payload.fileMeta "f" 9 "t" 2)).recvChunks.length ≤ j →
      (onDeliver initRecvState (Payload.fileMeta "f" 9 "t" 2)).recvChunks.length ≠ 0 →
      (onDeliver (onDeliver initRecvState (Payload.fileMeta "f" 9 "t" 2))
        (Payload.fileChunk j "AA==")).recvChunks.length = j + 1) :=
  slot_buffer_shape (onDeliver initRecvState (Payload.fileMeta "f" 9 "t" 2))
    "g" "t" 9 5 1 "AA==" (by decide)

/-- C10: Receiver guard on absent transfers: a `FileChunk` or
`FileComplete` delivered while the slot buffer is empty (no `FileMeta`
yet, or an announced `totalChunks` of 0) is dropped with no state change,
and a zero-byte transfer (`totalChunks = 0`) never surfaces a
reassembled file, because its `FileComplete` is ignored. -/
theorem receiver_guard_absent_transfer (r : RecvState) (index : Nat)
    (data : String) (h : r.recvChunks.length = 0) :
    onDeliver r (Payload.fileChunk index data) = r ∧
    onDeliver r Payload.fileComplete = r ∧
    (∀ (name type : String) (chunkSize : Nat), 0 < chunkSize →
      (fileRoundTrip [] name type chunkSize).downloadUrl = Option.none) := by
  refine ⟨by simp [onDeliver, h], by simp [onDeliver, h], ?_⟩
  intro name type chunkSize hpos
  have htot : totalChunksOf 0 chunkSize = 0 := by
    simp only [totalChunksOf]
    exact Nat.div_eq_of_lt (by omega)
  simp [fileRoundTrip, sendFilePayloads, fileChunkPayloads, htot,
    processPayloads, onDeliver, initRecvState]

theorem receiver_guard_absent_transfer_witness :
    onDeliver initRecvState (Payload.fileChunk 0 "AA==") = initRecvState ∧
    onDeliver initRecvState Payload.fileComplete = initRecvState ∧
    (∀ (name type : String) (chunkSize : Nat), 0 < chunkSize →
      (fileRoundTrip [] name type chunkSize).downloadUrl = Option.none) :=
  receiver_guard_absent_transfer initRecvState 0 "AA==" rfl

/-- C9: Relay broadcast excludes the sender: an
`offer`/`answer`/`candidate` message carrying `roomId` is forwarded,
verbatim, exactly to the open (`readyState = 1`) members of that room
other than the sender — no channel outside the room receives anything —
and in a two-member room only the other endpoint receives it, never the
sender. -/
theorem relay_excludes_sender (rooms : List (String × List WSClient))
    (sender : WSClient) (type roomId raw : String)
    (members : List WSClient)
    (htype : type = "offer" ∨ type = "answer" ∨ type = "candidate")
    (hroom : lookupRoom rooms roomId = some members) :
    (∀ (c : WSClient) (m : String),
      (c, m) ∈ relaySignal rooms sender type roomId raw ↔
        (m = raw ∧ c ∈ members ∧ c.id ≠ sender.id ∧ c.readyState = 1)) ∧
    (∀ A B : WSClient, A.id ≠ B.id → B.readyState = 1 →
      relaySignal [(roomId, [A, B])] A type roomId raw = [(B, raw)]) := by
  constructor
  · intro c m
    rw [relaySignal, if_pos htype, hroom]
    simp only [List.mem_map, List.mem_filter, Bool.and_eq_true, bne_iff_ne,
      beq_iff_eq, Prod.mk.injEq]
    constructor
    · rintro ⟨c', ⟨hmem, hne, hrs⟩, hc, hm⟩
      subst hc
      exact ⟨hm.symm, hmem, hne, hrs⟩
    · rintro ⟨hm, hmem, hne, hrs⟩
      exact ⟨c, ⟨hmem, hne, hrs⟩, rfl, hm.symm⟩
  · intro A B hAB hB
    rw [relaySignal, if_pos htype]
    have hlook : lookupRoom [(roomId, [A, B])] roomId = some [A, B] := by
      simp [lookupRoom]
    rw [hlook]
    simp [hB, Ne.symm hAB]

theorem relay_excludes_sender_witness :
    (∀ (c : WSClient) (m : String),
      (c, m) ∈ relaySignal [("room-A", [⟨1, 1⟩, ⟨2, 1⟩])] ⟨1, 1⟩ "offer"
          "room-A" "payload" ↔
        (m = "payload" ∧ c ∈ [(⟨1, 1⟩ : WSClient), ⟨2, 1⟩] ∧
          c.id ≠ (1 : Nat) ∧ c.readyState = 1)) ∧
    (∀ A B : WSClient, A.id ≠ B.id → B.readyState = 1 →
      relaySignal [("room-A", [A, B])] A "offer" "room-A" "payload" =
        [(B, "payload")]) :=
  relay_excludes_sender [("room-A", [⟨1, 1⟩, ⟨2, 1⟩])] ⟨1, 1⟩ "offer"
    "room-A" "payload" [⟨1, 1⟩, ⟨2, 1⟩] (Or.inl rfl) (by simp [lookupRoom])

/-! Section: Chunk-decomposition machinery for C1 -/

/-- Proof helper: the chunk decomposition of a byte buffer into pieces
of size `c + 1` (the successor keeps the recursion well-founded). -/
def chunkList (c : Nat) : Bytes → List Bytes
  | [] => []
  | b :: rest =>
      (b :: rest).take (c + 1) :: chunkList c ((b :: rest).drop (c + 1))
termination_by file => file.length
decreasing_by simp; omega

theorem chunkList_flatten (c : Nat) (file : Bytes) :
    List.flatten (chunkList c file) = file := by
  match file with
  | [] => simp [chunkList]
  | b :: rest =>
      rw [chunkList, List.flatten_cons,
        chunkList_flatten c ((b :: rest).drop (c + 1)),
        List.take_append_drop]
termination_by file.length
decreasing_by simp; omega

theorem totalChunksOf_succ (len c : Nat) (h : 0 < len) :
    totalChunksOf len (c + 1) = totalChunksOf (len - (c + 1)) (c + 1) + 1 := by
  simp only [totalChunksOf]
  have ha : len + (c + 1) - 1 = (len - 1) + (c + 1) := by omega
  rw [ha, Nat.add_div_right _ (Nat.succ_pos c)]
  rcases Nat.lt_or_ge len (c + 1) with hlt | hge
  · have h1 : len - (c + 1) = 0 := by omega
    rw [h1, Nat.div_eq_of_lt (show len - 1 < c + 1 by omega),
      Nat.div_eq_of_lt (show 0 + (c + 1) - 1 < c + 1 by omega)]
  · have hb : len - (c + 1) + (c + 1) - 1 = len - 1 := by omega
    rw [hb]

theorem chunkList_length (c : Nat) (file : Bytes) :
    (chunkList c file).length = totalChunksOf file.length (c + 1) := by
  match file with
  | [] =>
      simp only [chunkList, List.length_nil, totalChunksOf]
      rw [Nat.div_eq_of_lt (by omega)]
  | b :: rest =>
      rw [chunkList, List.length_cons,
        chunkList_length c ((b :: rest).drop (c + 1)),
        totalChunksOf_succ (b :: rest).length c (by simp), List.length_drop]
termination_by file.length
decreasing_by simp; omega

theorem fileSlice_eq_drop_take (file : Bytes) (i c : Nat) :
    fileSlice file i c = (file.drop (i * c)).take c := by
  simp only [fileSlice, List.drop_take]
  rw [List.take_eq_take]
  simp only [List.length_drop]
  omega

theorem fileSlice_zero (file : Bytes) (c : Nat) :
    fileSlice file 0 c = file.take c := by
  rw [fileSlice_eq_drop_take]
  simp

theorem fileSlice_succ (file : Bytes) (i c : Nat) :
    fileSlice file (i + 1) c = fileSlice (file.drop c) i c := by
  rw [fileSlice_eq_drop_take, fileSlice_eq_drop_take, List.drop_drop]
  congr 2
  ring

/-- Proof helper: the `file-chunk` payloads carrying a given list of
chunk byte buffers, indices starting at `k`. -/
def chunkPayloadsFrom : Nat → List Bytes → List Payload
  | _, [] => []
  | k, b :: rest =>
      Payload.fileChunk k (arrayBufferToBase64 b) ::
        chunkPayloadsFrom (k + 1) rest

theorem fileChunkPayloads_eq_chunkList (c : Nat) (file : Bytes) :
    ∀ k : Nat,
      (List.range (totalChunksOf file.length (c + 1))).map
        (fun i => Payload.fileChunk (k + i)
          (arrayBufferToBase64 (fileSlice file i (c + 1)))) =
      chunkPayloadsFrom k (chunkList c file) := by
  match file with
  | [] =>
      intro k
      simp only [List.length_nil, totalChunksOf,
        Nat.div_eq_of_lt (show 0 + (c + 1) - 1 < c + 1 by omega),
        List.range_zero, List.map_nil, chunkList, chunkPayloadsFrom]
  | b :: rest =>
      intro k
      rw [totalChunksOf_succ (b :: rest).length c (by simp),
        List.range_succ_eq_map, List.map_cons, List.map_map, chunkList,
        chunkPayloadsFrom]
      have ihead : k + 0 = k := rfl
      rw [ihead, fileSlice_zero]
      congr 1
      have htail :
          ((fun i => Payload.fileChunk (k + i)
            (arrayBufferToBase64 (fileSlice (b :: rest) i (c + 1)))) ∘
              Nat.succ) =
          fun i => Payload.fileChunk (k + 1 + i)
            (arrayBufferToBase64 (fileSlice ((b :: rest).drop (c + 1)) i
              (c + 1))) := by
        funext i
        simp only [Function.comp_apply, Nat.succ_eq_add_one]
        rw [show i + 1 = 1 + i by omega, show k + (1 + i) = k + 1 + i by omega]
        rw [show 1 + i = i + 1 by omega, fileSlice_succ]
      rw [htail, show (b :: rest).length - (c + 1) =
        ((b :: rest).drop (c + 1)).length by simp]
      exact fileChunkPayloads_eq_chunkList c ((b :: rest).drop (c + 1)) (k + 1)
termination_by file.length
decreasing_by simp; omega

theorem set_append_cons {α : Type} (l1 : List α) (a v : α) (l2 : List α) :
    (l1 ++ a :: l2).set l1.length v = l1 ++ v :: l2 := by
  induction l1 with
  | nil => rfl
  | cons x xs ih => simp [ih]

/-- Processing the chunk payloads for `rest` (indices continuing after
`pre`) fills exactly the remaining slots of the reassembly buffer. -/
theorem process_chunkPayloads (rest : List Bytes) :
    ∀ (pre : List Bytes) (r : RecvState),
      r.recvChunks = pre.map some ++
        List.replicate rest.length Option.none →
      (∀ b ∈ rest, ∀ x ∈ b, x < 256) →
      (processPayloads r (chunkPayloadsFrom pre.length rest)).recvChunks =
        (pre ++ rest).map some := by
  induction rest with
  | nil =>
      intro pre r hr _
      simp [processPayloads, chunkPayloadsFrom, hr]
  | cons b rest ih =>
      intro pre r hr hb
      rw [chunkPayloadsFrom, processPayloads, List.foldl_cons]
      have hlen : ¬ r.recvChunks.length = 0 := by
        rw [hr]
        simp
      have hidx : pre.length < r.recvChunks.length := by
        rw [hr]
        simp
      have hdec : base64ToUint8Array (arrayBufferToBase64 b) = b :=
        base64_string_roundtrip b (hb b (by simp))
      have hstep :
          (onDeliver r (Payload.fileChunk pre.length
            (arrayBufferToBase64 b))).recvChunks =
          (pre ++ [b]).map some ++
            List.replicate rest.length Option.none := by
        simp only [onDeliver]
        rw [if_neg hlen]
        dsimp only
        simp only [jsSetIndex]
        rw [if_pos hidx, hdec, hr]
        have hrepl : List.replicate ((b :: rest).length) (Option.none (α := Bytes)) =
            Option.none :: List.replicate rest.length Option.none := rfl
        rw [hrepl,
          show pre.length = (pre.map some).length from (List.length_map pre some).symm,
          set_append_cons]
        simp
      have hrec := ih (pre ++ [b])
        (onDeliver r (Payload.fileChunk pre.length (arrayBufferToBase64 b)))
        (by rw [hstep]) (fun b' hb' x hx => hb b' (by simp [hb']) x hx)
      rw [show (pre ++ [b]).length = pre.length + 1 by simp,
        processPayloads] at hrec
      rw [hrec]
      simp

theorem fileSlice_length (file : Bytes) (i c : Nat) :
    (fileSlice file i c).length = min (i * c + c) file.length - i * c := by
  simp only [fileSlice, List.length_drop, List.length_take]
  omega

/-- C1 counterexample: The round trip fails for a zero-byte
source: `totalChunks = 0`, so the receiver's `FileComplete` guard drops
the completion and no reassembled byte sequence is ever surfaced — in
particular none equal to the (empty) original. -/
theorem file_round_trip_zero_cex :
    (fileRoundTrip [] "empty" "application/octet-stream" 16384).downloadUrl =
      Option.none ∧
    (Option.none : Option Bytes) ≠ some [] := by
  constructor
  · rfl
  · simp

/-- C1 amended: File round-trip for nonempty sources: for every
byte source of positive size `S` and chunk size `C > 0`, the sender
computes `totalChunks = ceil(S/C)` and emits `FileMeta`, the
`FileChunk`s for indices `0..totalChunks-1` carrying the exact byte
ranges base64-encoded, then `FileComplete`; the receiver, processing
these payloads in order, surfaces a reassembled byte sequence
byte-for-byte identical to the original. For `S = 40000`, `C = 16384`:
`totalChunks = 3` with chunk byte-lengths `16384, 16384, 7232`. -/
theorem file_round_trip (file : Bytes) (name type : String)
    (chunkSize : Nat) (hC : 0 < chunkSize) (hS : 0 < file.length)
    (hbytes : ∀ b ∈ file, b < 256) :
    (fileRoundTrip file name type chunkSize).downloadUrl = some file ∧
    (file.length = 40000 → chunkSize = 16384 →
      totalChunksOf file.length chunkSize = 3 ∧
      (List.range 3).map (fun i => (fileSlice file i chunkSize).length) =
        [16384, 16384, 7232]) := by
  obtain ⟨c, rfl⟩ : ∃ c, chunkSize = c + 1 := ⟨chunkSize - 1, by omega⟩
  constructor
  · have hchunks : fileChunkPayloads file (c + 1) =
        chunkPayloadsFrom 0 (chunkList c file) := by
      rw [fileChunkPayloads]
      have h := fileChunkPayloads_eq_chunkList c file 0
      simpa using h
    have htot1 : 0 < totalChunksOf file.length (c + 1) := by
      rw [totalChunksOf_succ file.length c hS]
      omega
    rw [fileRoundTrip, sendFilePayloads, processPayloads]
    simp only [List.foldl_cons, List.foldl_append, List.foldl_nil]
    rw [hchunks]
    have hfill := process_chunkPayloads (chunkList c file) []
      (onDeliver initRecvState
        (Payload.fileMeta name file.length type
          (totalChunksOf file.length (c + 1))))
      (by simp [onDeliver, initRecvState, chunkList_length])
      (by
        intro b hbmem x hx
        apply hbytes
        rw [← chunkList_flatten c file]
        exact List.mem_flatten.mpr ⟨b, hbmem, hx⟩)
    simp only [List.length_nil, List.nil_append, processPayloads] at hfill
    have hcomplete : ∀ r : RecvState, ¬ r.recvChunks.length = 0 →
        (onDeliver r Payload.fileComplete).downloadUrl =
          some (blobBytes r.recvChunks) := by
      intro r hr
      simp only [onDeliver]
      rw [if_neg hr]
    rw [hcomplete _ (by rw [hfill]; simp [chunkList_length]; omega), hfill]
    have hblob : blobBytes ((chunkList c file).map some) = file := by
      simp only [blobBytes, List.map_map, Function.comp_def, Option.getD_some]
      simpa using chunkList_flatten c file
    rw [hblob]
  · rintro h40 hc16
    constructor
    · rw [h40, hc16]
      decide
    · simp only [List.range_succ, List.map_append, List.map_cons, List.map_nil,
        fileSlice_length, h40, hc16]
      norm_num

theorem file_round_trip_witness :
    (fileRoundTrip [10, 20, 30] "f" "t" 2).downloadUrl =
      some [10, 20, 30] ∧
    (([10, 20, 30] : Bytes).length = 40000 → (2 : Nat) = 16384 →
      totalChunksOf ([10, 20, 30] : Bytes).length 2 = 3 ∧
      (List.range 3).map
        (fun i => (fileSlice [10, 20, 30] i 2).length) =
        [16384, 16384, 7232]) :=
  file_round_trip [10, 20, 30] "f" "t" 2 (by decide) (by decide)
    (by decide)

end WebRTCFTP
